import Mathlib

/-!
Shallow embedding of `src/plister.py` (a plist → JSON converter CLI).

The embedding covers, faithful to the Python source:
* the POSIX path-string operations the script uses (`os.path.dirname`,
  `basename`, `splitext`, `join`, `relpath`, `abspath` restricted to the
  already-normalized paths the script passes them);
* `base64.b64encode` (standard alphabet, with padding) and a base64 decoder;
* `datetime.isoformat` for the (naive) `datetime` values `plistlib.load`
  produces, together with an ISO-8601 parser used to state round trips;
* `convert_to_json_serializable` and the incremental chunk semantics of
  `json.dump(..., ensure_ascii=False, indent=n, default=...)`, so that the
  text written before a mid-stream serialization failure is modelled;
* `compute_output_path`, `ensure_directory`, `iter_plist_files`,
  `convert_single_plist_to_json` and the directory branch of `main`
  (lines 172-233), over an explicit filesystem state that records created
  directories, written files, the stdout stream and an ordered event log.

External effects (the OS directory listing, `plistlib.load`) are supplied by
a `World` record, matching the spec, which places the directory-listing
primitive and the plist parser outside the core under specification.
-/

namespace Plister

/-! ## POSIX path-string operations (embedding of `posixpath` as used) -/

/-- Index of the last occurrence of `c` in `cs` (Python `str.rfind`),
`none` when absent. -/
def lastIdxOf (c : Char) (cs : List Char) : Option Nat :=
  match cs.reverse.findIdx? (fun x => x == c) with
  | none => none
  | some j => some (cs.length - 1 - j)

/-- Drop trailing copies of `c` (Python `str.rstrip(c)`). -/
def dropTrailing (c : Char) (cs : List Char) : List Char :=
  (cs.reverse.dropWhile (fun x => x == c)).reverse

/-- `os.path.dirname` (posixpath): everything up to the final slash, with
trailing slashes stripped unless the head is all slashes. -/
def dirname (p : String) : String :=
  match lastIdxOf '/' p.data with
  | none => ""
  | some k =>
    let head := p.data.take (k + 1)
    if head.all (fun x => x == '/') then String.mk head
    else String.mk (dropTrailing '/' head)

/-- `os.path.basename` (posixpath): everything after the final slash. -/
def basename (p : String) : String :=
  match lastIdxOf '/' p.data with
  | none => p
  | some k => String.mk (p.data.drop (k + 1))

/-- `os.path.splitext` (genericpath._splitext): split at the last dot of the
basename, unless the basename consists only of leading dots up to it. -/
def splitext (p : String) : String × String :=
  let cs := p.data
  let fnStart : Nat :=
    match lastIdxOf '/' cs with
    | none => 0
    | some k => k + 1
  match lastIdxOf '.' cs with
  | none => (p, "")
  | some d =>
    if fnStart ≤ d then
      if ((cs.drop fnStart).take (d - fnStart)).any (fun x => x != '.') then
        (String.mk (cs.take d), String.mk (cs.drop d))
      else (p, "")
    else (p, "")

/-- Python `str.startswith`. -/
def strStarts (s pre : String) : Bool := pre.data.isPrefixOf s.data

/-- Python `str.endswith`. -/
def strEnds (s suf : String) : Bool := suf.data.isSuffixOf s.data

/-- `os.path.join` (posixpath), two-argument form. -/
def pathJoin (a b : String) : String :=
  if strStarts b "/" then b
  else if a = "" ∨ strEnds a "/" = true then a ++ b
  else a ++ "/" ++ b

/-- `os.path.abspath` for the already-normalized paths the script passes:
join onto the (absolute) current working directory when relative. -/
def abspath (cwd p : String) : String :=
  if strStarts p "/" then p else pathJoin cwd p

/-- Python `str.split` at slashes. -/
def splitSlashAux (cur : List Char) : List Char → List String
  | [] => [String.mk cur.reverse]
  | c :: rest =>
    if c = '/' then String.mk cur.reverse :: splitSlashAux [] rest
    else splitSlashAux (c :: cur) rest

/-- Split a path into its non-empty components. -/
def splitPath (p : String) : List String :=
  (splitSlashAux [] p.data).filter (fun s => s != "")

/-- Python `sep.join(parts)`. -/
def joinWith (sep : String) : List String → String
  | [] => ""
  | [x] => x
  | x :: y :: rest => x ++ sep ++ joinWith sep (y :: rest)

/-- Length of the common component prefix of two component lists. -/
def commonLen : List String → List String → Nat
  | a :: as, b :: bs => if a = b then commonLen as bs + 1 else 0
  | _, _ => 0

/-- `os.path.relpath` (posixpath): make both paths absolute against `cwd`,
strip the common component run, and climb with `..` for what remains of
`start`. -/
def relpath (cwd path start : String) : String :=
  let pl := splitPath (abspath cwd path)
  let sl := splitPath (abspath cwd start)
  let i := commonLen sl pl
  let rel := List.replicate (sl.length - i) ".." ++ pl.drop i
  if rel = [] then "." else joinWith "/" rel

/-! ## `base64.b64encode` and a base64 decoder -/

/-- The standard base64 alphabet (RFC 4648 §4), as used by
`base64.b64encode`. -/
def stdB64Chars : List Char :=
  "ABCDEFGHIJKLMNOPQRSTUVWXYZabcdefghijklmnopqrstuvwxyz0123456789+/".data

/-- Character for a sextet value. -/
def charOf (n : Nat) : Char := stdB64Chars.getD n '='

/-- Sextet value of an alphabet character. -/
def decodeChar (c : Char) : Option Nat :=
  stdB64Chars.findIdx? (fun x => x == c)

/-- `base64.b64encode` over byte values (each `< 256`): three bytes become
four alphabet characters; a final group of one or two bytes is padded with
`=`. -/
def b64encode : List Nat → List Char
  | [] => []
  | [a] => [charOf (a / 4), charOf (a % 4 * 16), '=', '=']
  | [a, b] => [charOf (a / 4), charOf (a % 4 * 16 + b / 16), charOf (b % 16 * 4), '=']
  | a :: b :: c :: rest =>
    charOf (a / 4) :: charOf (a % 4 * 16 + b / 16) ::
      charOf (b % 16 * 4 + c / 64) :: charOf (c % 64) :: b64encode rest

/-- Base64 decoding (inverse direction of `base64.b64decode` on well-padded
input): four characters at a time, the final group possibly padded. -/
def b64decode : List Char → Option (List Nat)
  | [] => some []
  | w :: x :: y :: z :: rest =>
    match decodeChar w, decodeChar x with
    | some sw, some sx =>
      if z = '=' then
        if rest = [] then
          if y = '=' then some [sw * 4 + sx / 16]
          else
            match decodeChar y with
            | some sy => some [sw * 4 + sx / 16, sx % 16 * 16 + sy / 4]
            | none => none
        else none
      else
        match decodeChar y, decodeChar z, b64decode rest with
        | some sy, some sz, some tail =>
          some ((sw * 4 + sx / 16) :: (sx % 16 * 16 + sy / 4) :: (sy % 4 * 64 + sz) :: tail)
        | _, _, _ => none
    | _, _ => none
  | _ => none

/-! ## Naive `datetime` values and `datetime.isoformat` -/

/-- A Python `datetime.datetime`. `tzMinutes = none` models a naive value
(no `tzinfo`), which is what `plistlib.load` always produces for plist
dates (`plistlib._date_from_string` builds `datetime.datetime(*lst)` with
no timezone). -/
structure PyDatetime where
  year : Nat
  month : Nat
  day : Nat
  hour : Nat
  minute : Nat
  second : Nat
  microsecond : Nat
  tzMinutes : Option Int
  deriving DecidableEq, Repr

/-- Decimal digit character of `n % 10`. -/
def digitChar (n : Nat) : Char :=
  if n % 10 = 0 then '0' else if n % 10 = 1 then '1'
  else if n % 10 = 2 then '2' else if n % 10 = 3 then '3'
  else if n % 10 = 4 then '4' else if n % 10 = 5 then '5'
  else if n % 10 = 6 then '6' else if n % 10 = 7 then '7'
  else if n % 10 = 8 then '8' else '9'

/-- Two decimal digits (`%02d` within its range). -/
def fmt2 (n : Nat) : List Char := [digitChar (n / 10), digitChar n]

/-- Four decimal digits (`%04d` within its range). -/
def fmt4 (n : Nat) : List Char :=
  [digitChar (n / 1000), digitChar (n / 100), digitChar (n / 10), digitChar n]

/-- Six decimal digits (`%06d` within its range). -/
def fmt6 (n : Nat) : List Char :=
  [digitChar (n / 100000), digitChar (n / 10000), digitChar (n / 1000),
   digitChar (n / 100), digitChar (n / 10), digitChar n]

/-- The UTC-offset suffix `datetime.isoformat` appends for aware values;
empty for naive values. -/
def tzChars : Option Int → List Char
  | none => []
  | some off =>
    let a := off.natAbs
    (if off < 0 then '-' else '+') :: (fmt2 (a / 60) ++ ':' :: fmt2 (a % 60))

/-- `datetime.isoformat()`: `YYYY-MM-DDTHH:MM:SS[.ffffff][±HH:MM]`; the
fractional part appears exactly when `microsecond ≠ 0`. -/
def isoChars (d : PyDatetime) : List Char :=
  fmt4 d.year ++ '-' :: fmt2 d.month ++ '-' :: fmt2 d.day ++
    'T' :: fmt2 d.hour ++ ':' :: fmt2 d.minute ++ ':' :: fmt2 d.second ++
    (if d.microsecond = 0 then [] else '.' :: fmt6 d.microsecond) ++
    tzChars d.tzMinutes

/-- `datetime.isoformat()` as a string. -/
def isoformat (d : PyDatetime) : String := String.mk (isoChars d)

/-- Parse one decimal digit. -/
def parseDigit (c : Char) : Option Nat :=
  if 48 ≤ c.toNat ∧ c.toNat ≤ 57 then some (c.toNat - 48) else none

/-- Parse two decimal digits. -/
def parse2 (a b : Char) : Option Nat :=
  match parseDigit a, parseDigit b with
  | some x, some y => some (10 * x + y)
  | _, _ => none

/-- Parse four decimal digits. -/
def parse4 (a b c d : Char) : Option Nat :=
  match parse2 a b, parse2 c d with
  | some x, some y => some (100 * x + y)
  | _, _ => none

/-- Parse six decimal digits. -/
def parse6 (a b c d e f : Char) : Option Nat :=
  match parse2 a b, parse2 c d, parse2 e f with
  | some x, some y, some z => some (10000 * x + 100 * y + z)
  | _, _, _ => none

/-- Parse the ISO-8601 text a naive `datetime.isoformat()` emits back into
a naive `PyDatetime`. -/
def parseIsoNaive (s : String) : Option PyDatetime :=
  match s.data with
  | y1 :: y2 :: y3 :: y4 :: '-' :: mo1 :: mo2 :: '-' :: da1 :: da2 ::
      'T' :: h1 :: h2 :: ':' :: mi1 :: mi2 :: ':' :: se1 :: se2 :: rest =>
    match parse4 y1 y2 y3 y4, parse2 mo1 mo2, parse2 da1 da2,
          parse2 h1 h2, parse2 mi1 mi2, parse2 se1 se2 with
    | some y, some mo, some da, some h, some mi, some se =>
      match rest with
      | [] => some ⟨y, mo, da, h, mi, se, 0, none⟩
      | '.' :: u1 :: u2 :: u3 :: u4 :: u5 :: u6 :: [] =>
        match parse6 u1 u2 u3 u4 u5 u6 with
        | some us => some ⟨y, mo, da, h, mi, se, us, none⟩
        | none => none
      | _ => none
    | _, _, _, _, _, _ => none
  | _ => none

/-- Whether the textual timestamp carries a UTC designator or offset sign
anywhere after the date part. -/
def hasUtcOffset (s : String) : Bool :=
  (s.data.drop 11).any (fun c => c == '+' || c == '-' || c == 'Z')

/-! ## The Python values `plistlib.load` can return -/

/-- The object kinds `plistlib.load` can hand to `json.dump`: the
JSON-native kinds, plus `datetime.datetime`, `bytes`/`bytearray` and
`plistlib.UID`. Floats are carried as their `repr` text, abstracting IEEE
formatting. -/
inductive PyObj where
  | pyStr : String → PyObj
  | pyInt : Int → PyObj
  | pyBool : Bool → PyObj
  | pyFloat : String → PyObj
  | pyList : List PyObj → PyObj
  | pyDict : List (String × PyObj) → PyObj
  | pyDatetime : PyDatetime → PyObj
  | pyBytes : List Nat → PyObj
  | pyUID : Nat → PyObj

/-- Python `type(obj)` display text for the message of the TypeError raised
by `convert_to_json_serializable`. -/
def pyTypeName : PyObj → String
  | .pyStr _ => "<class \x27str\x27>"
  | .pyInt _ => "<class \x27int\x27>"
  | .pyBool _ => "<class \x27bool\x27>"
  | .pyFloat _ => "<class \x27float\x27>"
  | .pyList _ => "<class \x27list\x27>"
  | .pyDict _ => "<class \x27dict\x27>"
  | .pyDatetime _ => "<class \x27datetime.datetime\x27>"
  | .pyBytes _ => "<class \x27bytes\x27>"
  | .pyUID _ => "<class \x27plistlib.UID\x27>"

/-- Embedding of `convert_to_json_serializable` (plister.py lines 149-160):
`datetime → obj.isoformat()`, `bytes/bytearray → base64.b64encode(obj)
.decode("ascii")`, anything else raises `TypeError`. Both handled branches
return a Python `str`, so the result type is `Except message text`. -/
def convert_to_json_serializable : PyObj → Except String String
  | .pyDatetime d => Except.ok (isoformat d)
  | .pyBytes bs => Except.ok (String.mk (b64encode bs))
  | o => Except.error ("Type non sérialisable en JSON : " ++ pyTypeName o)

/-! ## `json.dump(..., ensure_ascii=False, indent=n, default=...)` -/

/-- Lowercase hexadecimal digit. -/
def hexDigit (n : Nat) : Char :=
  if n % 16 < 10 then digitChar (n % 16)
  else if n % 16 = 10 then 'a' else if n % 16 = 11 then 'b'
  else if n % 16 = 12 then 'c' else if n % 16 = 13 then 'd'
  else if n % 16 = 14 then 'e' else 'f'

/-- JSON string escaping with `ensure_ascii=False`: only the quote, the
backslash and control characters are escaped; non-ASCII text passes
through literally. -/
def escapeChar (c : Char) : String :=
  if c = '"' then "\\\""
  else if c = '\\' then "\\\\"
  else if c.toNat = 8 then "\\b"
  else if c.toNat = 12 then "\\f"
  else if c = '\n' then "\\n"
  else if c = '\r' then "\\r"
  else if c = '\t' then "\\t"
  else if c.toNat < 32 then "\\u00" ++ String.mk [hexDigit (c.toNat / 16), hexDigit (c.toNat % 16)]
  else String.mk [c]

/-- JSON string literal. -/
def strLit (s : String) : String :=
  "\"" ++ String.join (s.data.map escapeChar) ++ "\""

/-- `n` spaces. -/
def sp (n : Nat) : String := String.mk (List.replicate n ' ')

/-- The newline-plus-indentation text `json` emits between items when an
integer `indent` is given (the script always passes one). -/
def newlineIndent (indent lvl : Nat) : String := "\n" ++ sp (indent * lvl)

/-- What the `default` hook contributes when `json` meets a non-native
object: the hook result is emitted as a JSON string literal, a raised
`TypeError` aborts with no text of its own. -/
def encDefault (o : PyObj) : String × Option String :=
  match convert_to_json_serializable o with
  | Except.ok s => (strLit s, none)
  | Except.error e => ("", some e)

mutual
/-- Incremental-output semantics of `json.dump` (CPython `_iterencode`)
for one object at nesting level `lvl`: the text written to the sink before
returning or raising, and the `TypeError` message when `default` raised. -/
def encObj (indent lvl : Nat) : PyObj → String × Option String
  | PyObj.pyStr s => (strLit s, none)
  | PyObj.pyInt n => (toString n, none)
  | PyObj.pyBool b => (if b then "true" else "false", none)
  | PyObj.pyFloat lit => (lit, none)
  | PyObj.pyList xs =>
    match xs with
    | [] => ("[]", none)
    | x :: rest =>
      match encItems indent (lvl + 1) (x :: rest) with
      | (body, some e) => ("[" ++ newlineIndent indent (lvl + 1) ++ body, some e)
      | (body, none) =>
        ("[" ++ newlineIndent indent (lvl + 1) ++ body ++ newlineIndent indent lvl ++ "]", none)
  | PyObj.pyDict kvs =>
    match kvs with
    | [] => ("\x7b\x7d", none)
    | kv :: rest =>
      match encPairs indent (lvl + 1) (kv :: rest) with
      | (body, some e) => ("\x7b" ++ newlineIndent indent (lvl + 1) ++ body, some e)
      | (body, none) =>
        ("\x7b" ++ newlineIndent indent (lvl + 1) ++ body ++ newlineIndent indent lvl ++ "\x7d",
         none)
  | o => encDefault o

/-- Array items: the separator text for an item is flushed before the item
itself, so it survives a failure inside the item. -/
def encItems (indent lvl : Nat) : List PyObj → String × Option String
  | [] => ("", none)
  | [x] => encObj indent lvl x
  | x :: y :: rest =>
    match encObj indent lvl x with
    | (t, some e) => (t, some e)
    | (t, none) =>
      match encItems indent lvl (y :: rest) with
      | (t2, e2) => (t ++ "," ++ newlineIndent indent lvl ++ t2, e2)

/-- Object members: key text and `": "` are flushed before the value. -/
def encPairs (indent lvl : Nat) : List (String × PyObj) → String × Option String
  | [] => ("", none)
  | [(k, v)] =>
    match encObj indent lvl v with
    | (t, e) => (strLit k ++ ": " ++ t, e)
  | (k, v) :: p :: rest =>
    match encObj indent lvl v with
    | (t, some e) => (strLit k ++ ": " ++ t, some e)
    | (t, none) =>
      match encPairs indent lvl (p :: rest) with
      | (t2, e2) => (strLit k ++ ": " ++ t ++ "," ++ newlineIndent indent lvl ++ t2, e2)
end

/-! ## Filesystem / process state and external world -/

/-- Observable events of one invocation, in program order. -/
inductive Ev where
  | enumerateDir : Ev
  | exitNoFiles : Ev
  | exitUsage : Ev
  | mkdirp : String → Ev
  | readFile : String → Ev
  | wroteFile : String → Ev
  deriving DecidableEq, Repr

/-- Mutable state an invocation touches: the directories created with
`os.makedirs`, the files written (path to final content, a failed
`json.dump` leaving its partial prefix), the stdout stream, and the
ordered event log. -/
structure RunFS where
  dirs : List String
  files : List (String × String)
  stdoutTxt : String
  events : List Ev
  deriving DecidableEq, Repr

/-- The initial empty state. -/
def emptyFS : RunFS := ⟨[], [], "", []⟩

/-- Writing path `p` (mode "w"): any previous entry is replaced. -/
def setFile (p c : String) (files : List (String × String)) : List (String × String) :=
  (p, c) :: files.filter (fun e => e.1 != p)

/-- Embedding of `ensure_directory` (line 81-82): `os.makedirs(path,
exist_ok=True)`, recorded in the state and the event log. -/
def ensure_directory (path : String) (fs : RunFS) : RunFS :=
  { fs with dirs := path :: fs.dirs, events := fs.events ++ [Ev.mkdirp path] }

/-- One entry of `os.scandir`. -/
structure DirEntry where
  name : String
  isFile : Bool
  deriving DecidableEq, Repr

/-- Outcome of `plistlib.load` on one path: a value, or one of the
exception classes `convert_single_plist_to_json` catches. -/
inductive LoadResult where
  | ok : PyObj → LoadResult
  | invalidFile : LoadResult
  | notFound : LoadResult
  | exc : String → LoadResult

/-- The external collaborators: the working directory, the plist parser
(`plistlib.load`) per path, and the OS directory-listing primitives
(`os.walk` file entries as (root, filename); `os.scandir` entries), which
the spec places outside the core. -/
structure World where
  cwd : String
  load : String → LoadResult
  walkFiles : List (String × String)
  entries : List DirEntry

/-- Python string truthiness of an optional-string argument: `None` and
the empty string are falsy. -/
def pyTruthy : Option String → Bool
  | none => false
  | some s => s != ""

/-- ASCII lowering, Python `str.lower` on the ASCII names involved. -/
def pyLower (s : String) : String := String.mk (s.data.map Char.toLower)

/-! ## String sorting (`sorted` on path strings) -/

/-- Lexicographic code-point comparison of character lists, the order
Python uses on `str`. -/
def charListLe : List Char → List Char → Bool
  | [], _ => true
  | _ :: _, [] => false
  | a :: as, b :: bs =>
    if a.toNat < b.toNat then true
    else if b.toNat < a.toNat then false
    else charListLe as bs

/-- Python `<=` on strings. -/
def pyStrLe (a b : String) : Bool := charListLe a.data b.data

/-- The sorting relation of Python `sorted` on strings. -/
def strRel (a b : String) : Prop := pyStrLe a b = true

instance : DecidableRel strRel := fun a b => by
  unfold strRel; infer_instance

theorem charListLe_total (as bs : List Char) :
    charListLe as bs = true ∨ charListLe bs as = true := by
  induction as generalizing bs with
  | nil => exact Or.inl rfl
  | cons a as ih =>
    cases bs with
    | nil => exact Or.inr rfl
    | cons b bs =>
      by_cases h1 : a.toNat < b.toNat
      · left; simp [charListLe, h1]
      · by_cases h2 : b.toNat < a.toNat
        · right; simp [charListLe, h2]
        · have := ih bs
          simpa [charListLe, h1, h2] using this

/-- Unpack one comparison step of `charListLe`. -/
theorem charListLe_cons_elim {a b : Char} {as bs : List Char}
    (h : charListLe (a :: as) (b :: bs) = true) :
    a.toNat < b.toNat ∨ (a.toNat = b.toNat ∧ charListLe as bs = true) := by
  by_cases hab : a.toNat < b.toNat
  · exact Or.inl hab
  · by_cases hba : b.toNat < a.toNat
    · simp [charListLe, hab, hba] at h
    · exact Or.inr ⟨by omega, by simpa [charListLe, hab, hba] using h⟩

theorem charListLe_trans (as bs cs : List Char) (h1 : charListLe as bs = true)
    (h2 : charListLe bs cs = true) : charListLe as cs = true := by
  induction as generalizing bs cs with
  | nil => rfl
  | cons a as ih =>
    cases bs with
    | nil => simp [charListLe] at h1
    | cons b bs =>
      cases cs with
      | nil => simp [charListLe] at h2
      | cons c cs =>
        rcases charListLe_cons_elim h1 with hab | ⟨hab, h1t⟩ <;>
          rcases charListLe_cons_elim h2 with hbc | ⟨hbc, h2t⟩
        · simp [charListLe, show a.toNat < c.toNat by omega]
        · simp [charListLe, show a.toNat < c.toNat by omega]
        · simp [charListLe, show a.toNat < c.toNat by omega]
        · rw [charListLe, if_neg (by omega), if_neg (by omega)]
          exact ih bs cs h1t h2t

instance : IsTotal String strRel :=
  ⟨fun a b => charListLe_total a.data b.data⟩

instance : IsTrans String strRel :=
  ⟨fun a b c => charListLe_trans a.data b.data c.data⟩

/-- Python `sorted` on a list of strings. -/
def pySorted (l : List String) : List String := List.insertionSort strRel l

/-! ## The operations of plister.py -/

/-- Embedding of `compute_output_path` (lines 85-99). The enumeration of
directory contents is not involved; the one side effect is
`ensure_directory(os.path.dirname(output_path))`. `output_dir` of
`some ""` is falsy in Python and selects the `dirname` branch. -/
def compute_output_path (cwd plist_path base_input_dir : String)
    (output_dir : Option String) (fs : RunFS) : String × RunFS :=
  let directory :=
    if pyTruthy output_dir then output_dir.getD "" else dirname plist_path
  let rel_path :=
    if base_input_dir != "" then relpath cwd plist_path base_input_dir
    else basename plist_path
  let stem := (splitext rel_path).1
  let json_rel_path := stem ++ ".json"
  let output_path := pathJoin directory json_rel_path
  (output_path, ensure_directory (dirname output_path) fs)

/-- Embedding of `iter_plist_files` (lines 66-78): candidates are the walk
files (recursive) or the regular-file scandir entries (shallow) whose name
lowercased ends in `.plist`, joined onto their root, then `sorted`. -/
def iter_plist_files (w : World) (directory : String) (recursive : Bool) : List String :=
  let plist_files :=
    if recursive then
      (w.walkFiles.filter (fun rf => strEnds (pyLower rf.2) ".plist")).map
        (fun rf => pathJoin rf.1 rf.2)
    else
      (w.entries.filter (fun e => e.isFile && strEnds (pyLower e.name) ".plist")).map
        (fun e => pathJoin directory e.name)
  pySorted plist_files

/-- Embedding of `convert_single_plist_to_json` (lines 102-146). The open
of the plist is logged as a `readFile` event; the four `except` arms map
exceptions to result triples; on the output side, a file sink is first
`ensure_directory`-prepared, then opened with mode "w" and fed the
incremental `json.dump` output, so a failing dump leaves its partial
prefix as the file content; a stream sink appends to stdout (the trailing
newline is written only after a successful dump). The returned triple is
(plist path, success flag, optional error text) and no exception escapes. -/
def convert_single_plist_to_json (w : World) (plist_path : String)
    (output_path : Option String) (indent : Nat) (stream_output : Bool)
    (fs : RunFS) : (String × Bool × Option String) × RunFS :=
  let fs0 := { fs with events := fs.events ++ [Ev.readFile plist_path] }
  match w.load plist_path with
  | LoadResult.invalidFile =>
    ((plist_path, false, some "fichier .plist invalide ou corrompu"), fs0)
  | LoadResult.notFound =>
    ((plist_path, false, some "fichier introuvable"), fs0)
  | LoadResult.exc m =>
    ((plist_path, false, some ("erreur de lecture : " ++ m)), fs0)
  | LoadResult.ok v =>
    if stream_output || !(pyTruthy output_path) then
      match encObj indent 0 v with
      | (t, none) =>
        ((plist_path, true, none),
         { fs0 with stdoutTxt := fs0.stdoutTxt ++ t ++ "\n" })
      | (t, some e) =>
        ((plist_path, false, some ("erreur de conversion JSON : " ++ e)),
         { fs0 with stdoutTxt := fs0.stdoutTxt ++ t })
    else
      let op := output_path.getD ""
      let fs1 := ensure_directory (dirname op) fs0
      match encObj indent 0 v with
      | (t, none) =>
        ((plist_path, true, none),
         { fs1 with files := setFile op t fs1.files,
                    events := fs1.events ++ [Ev.wroteFile op] })
      | (t, some e) =>
        ((plist_path, false, some ("erreur de conversion JSON : " ++ e)),
         { fs1 with files := setFile op t fs1.files })

/-- The parsed CLI arguments the directory branch of `main` consumes. -/
structure Args where
  plist_file : String
  output : Option String
  output_dir : Option String
  indent : Nat
  recursive : Bool
  no_progress : Bool
  deriving DecidableEq, Repr

/-- Exit code, final state and per-file outcome list of a batch run. -/
structure MainResult where
  exitCode : Nat
  fs : RunFS
  results : List (String × Bool × Option String)
  deriving DecidableEq, Repr

/-- `base_dir = os.path.abspath(plist_path)` of the batch (line 189). -/
def batchBaseDir (w : World) (args : Args) : String :=
  abspath w.cwd args.plist_file

/-- `output_dir`, made absolute when truthy (lines 190-192). -/
def batchOutputDir (w : World) (args : Args) : Option String :=
  if pyTruthy args.output_dir then args.output_dir.map (fun d => abspath w.cwd d)
  else args.output_dir

/-- The per-file loop of `main` (lines 211-219): for each candidate in
order, compute its output path (which already creates the parent
directory), convert, and record `(plist_file, result[1], result[2])`. -/
def processFiles (w : World) (indent : Nat) (base_dir : String)
    (output_dir : Option String) :
    List String → RunFS → RunFS × List (String × Bool × Option String)
  | [], fs => (fs, [])
  | f :: rest, fs =>
    let pr := compute_output_path w.cwd f base_dir output_dir fs
    let cr := convert_single_plist_to_json w f (some pr.1) indent false pr.2
    let tl := processFiles w indent base_dir output_dir rest cr.2
    (tl.1, (f, cr.1.2.1, cr.1.2.2) :: tl.2)

/-- Embedding of the directory branch of `main` (lines 172-233): enumerate
candidates, exit 1 when none, exit 2 when the `--output` option is truthy while
`--output-dir` is not, else convert every candidate in sorted order and
exit 3 when any failed, 0 otherwise. The progress bar (`tqdm`) wraps the
same iteration without changing it and is not modelled, matching the spec
scope. -/
def mainDirBranch (w : World) (args : Args) (fs : RunFS) : MainResult :=
  let plist_files := iter_plist_files w args.plist_file args.recursive
  let fs0 := { fs with events := fs.events ++ [Ev.enumerateDir] }
  if plist_files.isEmpty then
    { exitCode := 1,
      fs := { fs0 with events := fs0.events ++ [Ev.exitNoFiles] },
      results := [] }
  else if pyTruthy args.output && !(pyTruthy args.output_dir) then
    { exitCode := 2,
      fs := { fs0 with events := fs0.events ++ [Ev.exitUsage] },
      results := [] }
  else
    let pr := processFiles w args.indent (batchBaseDir w args) (batchOutputDir w args)
      plist_files fs0
    { exitCode := if pr.2.any (fun r => !r.2.1) then 3 else 0,
      fs := pr.1,
      results := pr.2 }

/-- The output path the batch computes for candidate `f` (state-free
reading of `compute_output_path`, whose path result does not depend on
the filesystem). -/
def outPathFor (w : World) (args : Args) (f : String) : String :=
  (compute_output_path w.cwd f (batchBaseDir w args) (batchOutputDir w args) emptyFS).1

/-! ## Claims -/

/-- C1. Output-path mapping evaluated at the spec example: with output
root `out`, input `foo/bar/baz.plist` under base root `foo` maps to
`out/bar/baz.json` as claimed; with no output root the code joins the
relative path under the directory of the source file, producing
`foo/bar/bar/baz.json` (and creating `foo/bar/bar`), not the claimed
`foo/bar/baz.json` alongside the source. -/
theorem compute_output_path_mapping_eval :
    (compute_output_path "/w" "foo/bar/baz.plist" "foo" (some "out") emptyFS).1 =
      "out/bar/baz.json" ∧
    (compute_output_path "/w" "foo/bar/baz.plist" "foo" none emptyFS).1 =
      "foo/bar/bar/baz.json" ∧
    (compute_output_path "/w" "foo/bar/baz.plist" "foo" none emptyFS).2.dirs =
      ["foo/bar/bar"] := by
  decide

/-- Sample world for the batch-ordering claim: a directory listing holding
`b.plist`, `a.plist`, `c.plist` in scan order. -/
def c6World : World :=
  { cwd := "/w", load := fun _ => LoadResult.notFound, walkFiles := [],
    entries := [⟨"b.plist", true⟩, ⟨"a.plist", true⟩, ⟨"c.plist", true⟩] }

/-- C6. The candidate list of `iter_plist_files` is sorted lexicographically
by path for every directory, listing and recursion flag, and the sample
listing {b.plist, a.plist, c.plist} is visited as a.plist, b.plist,
c.plist. -/
theorem iter_plist_files_sorted :
    (∀ (w : World) (dir : String) (recursive : Bool),
        List.Sorted strRel (iter_plist_files w dir recursive)) ∧
    iter_plist_files c6World "d" false = ["d/a.plist", "d/b.plist", "d/c.plist"] := by
  constructor
  · intro w dir recursive
    exact List.sorted_insertionSort strRel _
  · decide

/-- C10. `convert_single_plist_to_json` always returns a triple: its first
component is the `plist_path` argument in every branch, and the success
flag is `true` exactly when the error component is `none`. (Totality over
`Exception`-derived failures is the shape of the embedding itself: every
caught exception arm is a returning branch.) -/
theorem convert_single_total :
    ∀ (w : World) (p : String) (op : Option String) (indent : Nat)
      (so : Bool) (fs : RunFS),
      (convert_single_plist_to_json w p op indent so fs).1.1 = p ∧
      ((convert_single_plist_to_json w p op indent so fs).1.2.1 = true ↔
        (convert_single_plist_to_json w p op indent so fs).1.2.2 = none) := by
  intro w p op indent so fs
  unfold convert_single_plist_to_json
  cases w.load p with
  | ok v =>
    dsimp only
    rcases h : encObj indent 0 v with ⟨t, e⟩
    split
    · cases e <;> simp [h]
    · cases e <;> simp [h]
  | invalidFile => simp
  | notFound => simp
  | exc m => simp

/-- World for the partial-output counterexample: `a.plist` decodes to the
Python list `[1, UID(3)]`, which `plistlib` can produce for binary plists
and which `convert_to_json_serializable` cannot serialize. -/
def c3World : World :=
  { cwd := "/w",
    load := fun p =>
      if p = "a.plist" then LoadResult.ok (PyObj.pyList [PyObj.pyInt 1, PyObj.pyUID 3])
      else LoadResult.notFound,
    walkFiles := [], entries := [] }

/-- C3 counterexample. A single conversion with a file sink fails during
JSON serialization, yet leaves an output file behind holding the partial
prefix written before the failure — refuting the claim that a failing
conversion never leaves a partial or truncated output file. -/
theorem convert_single_partial_output_cex :
    (convert_single_plist_to_json c3World "a.plist" (some "out/a.json") 2 false
        emptyFS).1.2.1 = false ∧
    List.lookup "out/a.json"
        (convert_single_plist_to_json c3World "a.plist" (some "out/a.json") 2 false
          emptyFS).2.files = some "[\n  1,\n  " ∧
    (convert_single_plist_to_json c3World "a.plist" (some "out/a.json") 2 false
        emptyFS).1.2.2 =
      some "erreur de conversion JSON : Type non sérialisable en JSON : <class \x27plistlib.UID\x27>" := by
  decide

/-- C3 amended. A conversion whose read or decode fails leaves files,
directories and stdout untouched (no artifact at all), and a conversion
that succeeds with a file sink writes exactly the one output file with the
full JSON text; but (per the counterexample) a serialization failure after
the output file was opened leaves a partial file behind. -/
theorem convert_single_output_artifact :
    ∀ (w : World) (p op : String) (indent : Nat) (fs : RunFS),
      ((w.load p = LoadResult.invalidFile ∨ w.load p = LoadResult.notFound ∨
          (∃ m, w.load p = LoadResult.exc m)) →
        ((convert_single_plist_to_json w p (some op) indent false fs).2.files = fs.files ∧
         (convert_single_plist_to_json w p (some op) indent false fs).2.dirs = fs.dirs ∧
         (convert_single_plist_to_json w p (some op) indent false fs).2.stdoutTxt =
           fs.stdoutTxt)) ∧
      (∀ v t, w.load p = LoadResult.ok v → op ≠ "" → encObj indent 0 v = (t, none) →
        ((convert_single_plist_to_json w p (some op) indent false fs).1.2.1 = true ∧
         (convert_single_plist_to_json w p (some op) indent false fs).2.files =
           setFile op t fs.files)) := by
  intro w p op indent fs
  constructor
  · intro h
    rcases h with h | h | ⟨m, h⟩ <;>
      simp [convert_single_plist_to_json, h]
  · intro v t hv hop henc
    have hop2 : (op != "") = true := by simpa using hop
    simp [convert_single_plist_to_json, hv, pyTruthy, hop2, henc, ensure_directory]

/-- C3 witness for the amended statement: a missing input file produces a
failure and no artifact. -/
theorem convert_single_output_artifact_witness :
    (convert_single_plist_to_json c3World "missing.plist" (some "o/x.json") 2 false
        emptyFS).2.files = emptyFS.files ∧
    (convert_single_plist_to_json c3World "missing.plist" (some "o/x.json") 2 false
        emptyFS).2.dirs = emptyFS.dirs ∧
    (convert_single_plist_to_json c3World "missing.plist" (some "o/x.json") 2 false
        emptyFS).2.stdoutTxt = emptyFS.stdoutTxt :=
  (convert_single_output_artifact c3World "missing.plist" "o/x.json" 2 emptyFS).1
    (Or.inr (Or.inl rfl))

/-- World for the partial-failure batch: one valid and one corrupted plist
in directory `d`. -/
def c5World : World :=
  { cwd := "/w",
    load := fun p =>
      if p = "d/valid.plist" then LoadResult.ok (PyObj.pyDict [("k", PyObj.pyStr "v")])
      else if p = "d/corrupt.plist" then LoadResult.invalidFile
      else LoadResult.notFound,
    walkFiles := [],
    entries := [⟨"valid.plist", true⟩, ⟨"corrupt.plist", true⟩] }

/-- Arguments of the partial-failure batch. -/
def c5Args : Args := ⟨"d", none, some "o", 2, false, false⟩

/-- C5. The batch loop records one outcome per candidate for every world,
so one failing file never aborts the batch; on the directory with one
valid and one corrupted plist the run returns two outcomes, exactly one
success, and the failed entry carries the invalid-format reason. -/
theorem batch_partial_failure :
    (∀ (w : World) (indent : Nat) (bd : String) (od : Option String)
        (files : List String) (fs : RunFS),
        (processFiles w indent bd od files fs).2.length = files.length) ∧
    (mainDirBranch c5World c5Args emptyFS).results =
      [("d/corrupt.plist", false, some "fichier .plist invalide ou corrompu"),
       ("d/valid.plist", true, none)] ∧
    ((mainDirBranch c5World c5Args emptyFS).results.filter (fun r => r.2.1)).length = 1 := by
  refine ⟨?_, by decide, by decide⟩
  intro w indent bd od files fs
  induction files generalizing fs with
  | nil => rfl
  | cons f rest ih => simp [processFiles, ih]

/-- C8. In the directory branch, whenever a truthy output directory is
supplied the run is identical to the run with the explicit output file
path removed — the `--output` value is silently ignored, never rejected
(the usage exit code 2 cannot occur). -/
theorem batch_output_ignored :
    ∀ (w : World) (args : Args) (fs : RunFS),
      pyTruthy args.output_dir = true →
      (mainDirBranch w args fs = mainDirBranch w { args with output := none } fs ∧
       (mainDirBranch w args fs).exitCode ≠ 2) := by
  intro w args fs h
  constructor
  · unfold mainDirBranch
    simp [h, batchBaseDir, batchOutputDir]
  · unfold mainDirBranch
    simp only [h]
    split
    · simp
    · simp only [Bool.not_true, Bool.and_false, Bool.false_eq_true, if_false]
      split <;> simp

/-- World for the C8 witness: one plist file in directory `d`. -/
def c8World : World :=
  { cwd := "/w", load := fun _ => LoadResult.invalidFile, walkFiles := [],
    entries := [⟨"x.plist", true⟩] }

/-- Arguments for the C8 witness: both an output file and an output
directory supplied with a directory input. -/
def c8Args : Args := ⟨"d", some "out.json", some "o", 2, false, false⟩

/-- C8 witness: at a concrete invocation with both options, the run equals
the run without the output file path and is not a usage rejection. -/
theorem batch_output_ignored_witness :
    mainDirBranch c8World c8Args emptyFS =
      mainDirBranch c8World { c8Args with output := none } emptyFS ∧
    (mainDirBranch c8World c8Args emptyFS).exitCode ≠ 2 :=
  batch_output_ignored c8World c8Args emptyFS (by decide)

/-- World for the usage-error claim: directory `d` holds one plist file. -/
def c2World : World :=
  { cwd := "/w", load := fun _ => LoadResult.invalidFile, walkFiles := [],
    entries := [⟨"x.plist", true⟩] }

/-- Usage-error arguments: directory input with an explicit output file
path and no output directory. -/
def c2UsageArgs : Args := ⟨"d", some "out.json", none, 2, false, false⟩

/-- Directory input with both an output file path and an output
directory. -/
def c2BothArgs : Args := ⟨"d", some "out.json", some "o", 2, false, false⟩

/-- World with a directory holding no plist files. -/
def c2EmptyWorld : World :=
  { cwd := "/w", load := fun _ => LoadResult.invalidFile, walkFiles := [], entries := [] }

/-- C2 counterexample. At a concrete directory invocation with an explicit
output file path: the rejection (exit 2) happens only after the directory
has been enumerated (the event log shows the traversal first), so it is
not "before directory traversal begins"; supplying an output directory as
well makes the same invocation proceed instead of being rejected; and on a
directory with no candidates the invocation exits with the no-files signal
1, not the usage rejection. -/
theorem mainDir_usage_cex :
    ((mainDirBranch c2World c2UsageArgs emptyFS).exitCode = 2 ∧
      (mainDirBranch c2World c2UsageArgs emptyFS).fs.events =
        [Ev.enumerateDir, Ev.exitUsage]) ∧
    ((mainDirBranch c2World c2BothArgs emptyFS).exitCode ≠ 2 ∧
      (mainDirBranch c2World c2BothArgs emptyFS).results.length = 1) ∧
    (mainDirBranch c2EmptyWorld c2UsageArgs emptyFS).exitCode = 1 := by
  decide

/-- C2 amended. When the input is a directory holding at least one
candidate, an explicit truthy output file path is supplied and no truthy
output directory is, the invocation aborts with the usage exit code 2
after enumerating the directory but before any file is read or converted:
no outcome is recorded and the filesystem state is untouched except for
the enumeration and usage-exit events. -/
theorem mainDir_usage_rejection :
    ∀ (w : World) (args : Args) (fs : RunFS),
      pyTruthy args.output = true →
      pyTruthy args.output_dir = false →
      iter_plist_files w args.plist_file args.recursive ≠ [] →
      ((mainDirBranch w args fs).exitCode = 2 ∧
       (mainDirBranch w args fs).results = [] ∧
       (mainDirBranch w args fs).fs =
         { fs with events := fs.events ++ [Ev.enumerateDir, Ev.exitUsage] }) := by
  intro w args fs h1 h2 hne
  have he : (iter_plist_files w args.plist_file args.recursive).isEmpty = false := by
    simpa [List.isEmpty_iff] using hne
  simp [mainDirBranch, he, h1, h2]

/-- Parsing inverts the digit table. -/
theorem parseDigit_digitChar (n : Nat) : parseDigit (digitChar n) = some (n % 10) := by
  unfold digitChar
  have h : n % 10 < 10 := by omega
  generalize n % 10 = m at h ⊢
  interval_cases m <;> decide

/-- The digit character depends only on the value mod 10. -/
theorem digitChar_congr {m m' : Nat} (h : m % 10 = m' % 10) :
    digitChar m = digitChar m' := by
  unfold digitChar
  rw [h]

/-- A digit character is never a sign or the UTC designator. -/
theorem digitChar_not_tz (n : Nat) :
    ((digitChar n == '+') || (digitChar n == '-') || (digitChar n == 'Z')) = false := by
  unfold digitChar
  have h : n % 10 < 10 := by omega
  generalize n % 10 = m at h ⊢
  interval_cases m <;> decide

/-- Two formatted digits parse back to the value below 100. -/
theorem parse2_digits {n : Nat} (h : n < 100) :
    parse2 (digitChar (n / 10)) (digitChar n) = some n := by
  simp only [parse2, parseDigit_digitChar]
  simp only [Option.some.injEq]
  omega

/-- Four formatted digits parse back to the value below 10000. -/
theorem parse4_digits {n : Nat} (h : n < 10000) :
    parse4 (digitChar (n / 1000)) (digitChar (n / 100)) (digitChar (n / 10))
      (digitChar n) = some n := by
  have e1 : n / 1000 = n / 100 / 10 := by omega
  have e2 : digitChar (n / 10) = digitChar (n % 100 / 10) :=
    digitChar_congr (by omega)
  have e3 : digitChar n = digitChar (n % 100) := digitChar_congr (by omega)
  rw [parse4, e1, e2, e3, parse2_digits (by omega : n / 100 < 100),
    parse2_digits (by omega : n % 100 < 100)]
  simp only [Option.some.injEq]
  omega

/-- Six formatted digits parse back to the value below 1000000. -/
theorem parse6_digits {n : Nat} (h : n < 1000000) :
    parse6 (digitChar (n / 100000)) (digitChar (n / 10000)) (digitChar (n / 1000))
      (digitChar (n / 100)) (digitChar (n / 10)) (digitChar n) = some n := by
  have e1 : n / 100000 = n / 10000 / 10 := by omega
  have e2 : digitChar (n / 1000) = digitChar (n / 100 % 100 / 10) :=
    digitChar_congr (by omega)
  have e3 : digitChar (n / 100) = digitChar (n / 100 % 100) :=
    digitChar_congr (by omega)
  have e4 : digitChar (n / 10) = digitChar (n % 100 / 10) :=
    digitChar_congr (by omega)
  have e5 : digitChar n = digitChar (n % 100) := digitChar_congr (by omega)
  rw [parse6, e1, e2, e3, e4, e5, parse2_digits (by omega : n / 10000 < 100),
    parse2_digits (by omega : n / 100 % 100 < 100),
    parse2_digits (by omega : n % 100 < 100)]
  simp only [Option.some.injEq]
  omega

/-- Sample naive decoded date: what `plistlib.load` yields for
`<date>2004-11-28T21:14:23Z</date>` (a naive `datetime`, UTC implied). -/
def c4Date : PyDatetime := ⟨2004, 11, 28, 21, 14, 23, 0, none⟩

/-- C4 counterexample. The JSON encoder emits the decoded (naive) date as
the string `2004-11-28T21:14:23`, which carries no timezone offset at all
— refuting the claim that the emitted ISO-8601 string includes one. -/
theorem date_no_offset_cex :
    convert_to_json_serializable (PyObj.pyDatetime c4Date) =
      Except.ok "2004-11-28T21:14:23" ∧
    hasUtcOffset "2004-11-28T21:14:23" = false := by
  constructor
  · show Except.ok (isoformat c4Date) = Except.ok "2004-11-28T21:14:23"
    have h : isoformat c4Date = "2004-11-28T21:14:23" := by decide
    rw [h]
  · decide

/-- C4 amended. For every naive decoded date (the only kind `plistlib`
produces) with in-range fields, the encoder hook returns `isoformat` text
as a Python string, `json` emits it as a JSON string literal (never a
number), the text carries no timezone offset or UTC designator, and
parsing it back as a naive ISO-8601 timestamp recovers the very same
date — the same instant under the implied-UTC reading. -/
theorem date_iso_naive_roundtrip :
    ∀ (d : PyDatetime) (indent lvl : Nat),
      d.tzMinutes = none → d.year < 10000 → d.month < 100 → d.day < 100 →
      d.hour < 100 → d.minute < 100 → d.second < 100 → d.microsecond < 1000000 →
      (convert_to_json_serializable (PyObj.pyDatetime d) = Except.ok (isoformat d) ∧
       encObj indent lvl (PyObj.pyDatetime d) = (strLit (isoformat d), none) ∧
       hasUtcOffset (isoformat d) = false ∧
       parseIsoNaive (isoformat d) = some d) := by
  intro d indent lvl htz hy hmo hda hh hmi hs hus
  obtain ⟨y, mo, da, h, mi, s, us, tz⟩ := d
  simp only at htz hy hmo hda hh hmi hs hus
  subst htz
  refine ⟨rfl, ?_, ?_, ?_⟩
  · simp [encObj, encDefault, convert_to_json_serializable]
  · by_cases hus0 : us = 0 <;>
      simp [hasUtcOffset, isoformat, isoChars, fmt4, fmt2, fmt6, tzChars,
        digitChar_not_tz, hus0]
  · by_cases hus0 : us = 0
    · subst hus0
      simp only [isoformat, isoChars, fmt4, fmt2, fmt6, tzChars, if_pos rfl,
        List.append_nil, List.cons_append, List.nil_append]
      simp only [parseIsoNaive]
      rw [parse4_digits hy, parse2_digits hmo, parse2_digits hda,
        parse2_digits hh, parse2_digits hmi, parse2_digits hs]
      simp
    · simp only [isoformat, isoChars, fmt4, fmt2, fmt6, tzChars, if_neg hus0,
        List.append_nil, List.cons_append, List.nil_append]
      simp only [parseIsoNaive]
      rw [parse4_digits hy, parse2_digits hmo, parse2_digits hda,
        parse2_digits hh, parse2_digits hmi, parse2_digits hs,
        parse6_digits hus]

/-- C4 witness for the amended statement, at the sample decoded date. -/
theorem date_iso_naive_roundtrip_witness :
    convert_to_json_serializable (PyObj.pyDatetime c4Date) =
      Except.ok (isoformat c4Date) ∧
    encObj 2 0 (PyObj.pyDatetime c4Date) = (strLit (isoformat c4Date), none) ∧
    hasUtcOffset (isoformat c4Date) = false ∧
    parseIsoNaive (isoformat c4Date) = some c4Date :=
  date_iso_naive_roundtrip c4Date 2 0 rfl (by decide) (by decide) (by decide)
    (by decide) (by decide) (by decide) (by decide)

/-- Every sextet decodes back to itself through the alphabet table. -/
theorem decodeChar_charOf : ∀ n < 64, decodeChar (charOf n) = some n := by decide

/-- No alphabet character is the padding character. -/
theorem charOf_ne_pad : ∀ n < 64, charOf n ≠ '=' := by decide

/-- Alphabet characters come from the standard table. -/
theorem charOf_mem : ∀ n < 64, charOf n ∈ stdB64Chars := by decide

/-- Decoding inverts encoding on byte lists. -/
theorem b64decode_encode : ∀ (bs : List Nat), (∀ b ∈ bs, b < 256) →
    b64decode (b64encode bs) = some bs
  | [], _ => by simp [b64encode, b64decode]
  | [a], h => by
    have ha : a < 256 := h a (by simp)
    simp only [b64encode, b64decode]
    rw [decodeChar_charOf _ (by omega), decodeChar_charOf _ (by omega)]
    simp only [reduceIte, Option.some.injEq, List.cons.injEq, and_true]
    omega
  | [a, b], h => by
    have ha : a < 256 := h a (by simp)
    have hb : b < 256 := h b (by simp)
    simp only [b64encode, b64decode]
    rw [decodeChar_charOf _ (by omega), decodeChar_charOf _ (by omega)]
    simp only [reduceIte, if_neg (charOf_ne_pad _ (by omega : b % 16 * 4 < 64))]
    rw [decodeChar_charOf _ (by omega)]
    simp only [Option.some.injEq, List.cons.injEq, and_true]
    constructor <;> omega
  | a :: b :: c :: rest, h => by
    have ha : a < 256 := h a (by simp)
    have hb : b < 256 := h b (by simp)
    have hc : c < 256 := h c (by simp)
    have ih := b64decode_encode rest (fun x hx => h x (by simp [hx]))
    simp only [b64encode, b64decode]
    rw [decodeChar_charOf _ (by omega), decodeChar_charOf _ (by omega)]
    dsimp only
    rw [if_neg (charOf_ne_pad _ (by omega : c % 64 < 64))]
    rw [decodeChar_charOf _ (by omega), decodeChar_charOf _ (by omega), ih]
    simp only [Option.some.injEq, List.cons.injEq, and_true]
    refine ⟨by omega, by omega, by omega⟩

/-- Every character the encoder emits is an alphabet character or the
padding character. -/
theorem b64encode_alphabet : ∀ (bs : List Nat), (∀ b ∈ bs, b < 256) →
    ∀ c ∈ b64encode bs, c ∈ stdB64Chars ∨ c = '='
  | [], _ => by simp [b64encode]
  | [a], h => by
    have ha : a < 256 := h a (by simp)
    intro c hc
    simp only [b64encode, List.mem_cons, List.not_mem_nil, or_false] at hc
    rcases hc with rfl | rfl | rfl | rfl
    · exact Or.inl (charOf_mem _ (by omega))
    · exact Or.inl (charOf_mem _ (by omega))
    · exact Or.inr rfl
    · exact Or.inr rfl
  | [a, b], h => by
    have ha : a < 256 := h a (by simp)
    have hb : b < 256 := h b (by simp)
    intro c hc
    simp only [b64encode, List.mem_cons, List.not_mem_nil, or_false] at hc
    rcases hc with rfl | rfl | rfl | rfl
    · exact Or.inl (charOf_mem _ (by omega))
    · exact Or.inl (charOf_mem _ (by omega))
    · exact Or.inl (charOf_mem _ (by omega))
    · exact Or.inr rfl
  | a :: b :: c :: rest, h => by
    have ha : a < 256 := h a (by simp)
    have hb : b < 256 := h b (by simp)
    have hc : c < 256 := h c (by simp)
    have ih := b64encode_alphabet rest (fun x hx => h x (by simp [hx]))
    intro x hx
    simp only [b64encode, List.mem_cons] at hx
    rcases hx with rfl | rfl | rfl | rfl | hx
    · exact Or.inl (charOf_mem _ (by omega))
    · exact Or.inl (charOf_mem _ (by omega))
    · exact Or.inl (charOf_mem _ (by omega))
    · exact Or.inl (charOf_mem _ (by omega))
    · exact ih x hx

/-- The encoder output length is always a multiple of four (full padding). -/
theorem b64encode_len : ∀ (bs : List Nat), (b64encode bs).length % 4 = 0
  | [] => by simp [b64encode]
  | [_] => by simp [b64encode]
  | [_, _] => by simp [b64encode]
  | a :: b :: c :: rest => by
    have ih := b64encode_len rest
    simp only [b64encode, List.length_cons]
    omega

/-- C7. For every byte sequence (including the empty one), the encoder
hook emits the base64 text as a Python string; that text uses only the
standard alphabet (so `+` and `/`, never `-` or `_`) plus `=` padding,
has full-padding length, and base64-decoding it returns exactly the
original bytes. -/
theorem b64_bytes_roundtrip :
    ∀ (bs : List Nat), (∀ b ∈ bs, b < 256) →
      (convert_to_json_serializable (PyObj.pyBytes bs) =
        Except.ok (String.mk (b64encode bs)) ∧
       b64decode (b64encode bs) = some bs ∧
       (∀ c ∈ b64encode bs, c ∈ stdB64Chars ∨ c = '=') ∧
       (b64encode bs).length % 4 = 0) := by
  intro bs h
  exact ⟨rfl, b64decode_encode bs h, b64encode_alphabet bs h, b64encode_len bs⟩

/-- C7 witness: the round trip at the empty byte sequence and at the bytes
of "Man" (whose encoding is the classic `TWFu`). -/
theorem b64_bytes_roundtrip_witness :
    b64decode (b64encode []) = some [] ∧
    b64decode (b64encode [77, 97, 110]) = some [77, 97, 110] ∧
    String.mk (b64encode [77, 97, 110]) = "TWFu" :=
  ⟨(b64_bytes_roundtrip [] (by decide)).2.1,
   (b64_bytes_roundtrip [77, 97, 110] (by decide)).2.1,
   by decide⟩

/-- One conversion appends a `readFile` event first and only ever adds
directories. -/
theorem convert_single_events (w : World) (p : String) (op : Option String)
    (indent : Nat) (so : Bool) (fs : RunFS) :
    (∃ δ, (convert_single_plist_to_json w p op indent so fs).2.events =
        fs.events ++ Ev.readFile p :: δ) ∧
      ∀ d ∈ fs.dirs, d ∈ (convert_single_plist_to_json w p op indent so fs).2.dirs := by
  unfold convert_single_plist_to_json
  cases w.load p with
  | ok v =>
    dsimp only
    rcases h : encObj indent 0 v with ⟨t, e⟩
    split
    · cases e <;> simp [h]
    · cases e <;> simp [h, ensure_directory] <;>
        exact fun d hd => Or.inr hd
  | invalidFile => exact ⟨⟨[], by simp⟩, fun d hd => hd⟩
  | notFound => exact ⟨⟨[], by simp⟩, fun d hd => hd⟩
  | exc m => exact ⟨⟨[], by simp⟩, fun d hd => hd⟩

/-- `compute_output_path` appends exactly the mkdir event for the parent
of the output path, conses that directory, and its path result does not
depend on the filesystem. -/
theorem compute_output_path_state (cwd p bd : String) (od : Option String)
    (fs : RunFS) :
    (compute_output_path cwd p bd od fs).2.events =
      fs.events ++ [Ev.mkdirp (dirname (compute_output_path cwd p bd od fs).1)] ∧
    (compute_output_path cwd p bd od fs).2.dirs =
      dirname (compute_output_path cwd p bd od fs).1 :: fs.dirs ∧
    (compute_output_path cwd p bd od fs).1 = (compute_output_path cwd p bd od emptyFS).1 :=
  ⟨rfl, rfl, rfl⟩

/-- The batch loop only appends events and only adds directories. -/
theorem processFiles_mono (w : World) (indent : Nat) (bd : String)
    (od : Option String) :
    ∀ (files : List String) (fs : RunFS),
      (∃ δ, (processFiles w indent bd od files fs).1.events = fs.events ++ δ) ∧
      ∀ d ∈ fs.dirs, d ∈ (processFiles w indent bd od files fs).1.dirs := by
  intro files
  induction files with
  | nil => exact fun fs => ⟨⟨[], by simp [processFiles]⟩, fun d hd => hd⟩
  | cons g rest ih =>
    intro fs
    simp only [processFiles]
    obtain ⟨⟨δ1, hδ1⟩, hdirs1⟩ :=
      convert_single_events w g
        (some (compute_output_path w.cwd g bd od fs).1) indent false
        (compute_output_path w.cwd g bd od fs).2
    obtain ⟨⟨δ2, hδ2⟩, hdirs2⟩ := ih
      (convert_single_plist_to_json w g
        (some (compute_output_path w.cwd g bd od fs).1) indent false
        (compute_output_path w.cwd g bd od fs).2).2
    constructor
    · refine ⟨[Ev.mkdirp (dirname (compute_output_path w.cwd g bd od fs).1)] ++
        (Ev.readFile g :: δ1) ++ δ2, ?_⟩
      rw [hδ2, hδ1, (compute_output_path_state w.cwd g bd od fs).1]
      simp
    · intro d hd
      exact hdirs2 d (hdirs1 d (by
        rw [(compute_output_path_state w.cwd g bd od fs).2.1]
        exact List.mem_cons_of_mem _ hd))

/-- For every candidate, the batch loop logs the mkdir of its output
parent directly followed by the read of the candidate, and that directory
is present in the final state. -/
theorem processFiles_mkdir_read (w : World) (indent : Nat) (bd : String)
    (od : Option String) :
    ∀ (files : List String) (fs : RunFS) (f : String), f ∈ files →
      ((∃ l1 l2,
          (processFiles w indent bd od files fs).1.events =
            l1 ++ Ev.mkdirp (dirname (compute_output_path w.cwd f bd od emptyFS).1) ::
              Ev.readFile f :: l2) ∧
        dirname (compute_output_path w.cwd f bd od emptyFS).1 ∈
          (processFiles w indent bd od files fs).1.dirs) := by
  intro files
  induction files with
  | nil => intro fs f hf; cases hf
  | cons g rest ih =>
    intro fs f hf
    rcases List.mem_cons.mp hf with rfl | hf
    · simp only [processFiles]
      obtain ⟨⟨δ1, hδ1⟩, hdirs1⟩ :=
        convert_single_events w f
          (some (compute_output_path w.cwd f bd od fs).1) indent false
          (compute_output_path w.cwd f bd od fs).2
      obtain ⟨⟨δ2, hδ2⟩, hdirs2⟩ := processFiles_mono w indent bd od rest
        (convert_single_plist_to_json w f
          (some (compute_output_path w.cwd f bd od fs).1) indent false
          (compute_output_path w.cwd f bd od fs).2).2
      obtain ⟨hev, hdir, hpath⟩ := compute_output_path_state w.cwd f bd od fs
      constructor
      · refine ⟨fs.events, δ1 ++ δ2, ?_⟩
        rw [hδ2, hδ1, hev, hpath]
        simp
      · refine hdirs2 _ (hdirs1 _ ?_)
        rw [hdir, hpath]
        exact List.mem_cons_self _ _
    · simp only [processFiles]
      exact ih _ f hf

/-- C9. Whenever the batch actually runs (candidates exist and the usage
check passes), each candidate file has its output parent directory created
— logged strictly before the candidate is opened for decoding — and that
directory is present in the final filesystem state, whether or not the
conversion of the candidate succeeds. -/
theorem batch_mkdir_before_read :
    ∀ (w : World) (args : Args) (fs : RunFS) (f : String),
      f ∈ iter_plist_files w args.plist_file args.recursive →
      (pyTruthy args.output && !(pyTruthy args.output_dir)) = false →
      ((∃ l1 l2,
          (mainDirBranch w args fs).fs.events =
            l1 ++ Ev.mkdirp (dirname (outPathFor w args f)) :: Ev.readFile f :: l2) ∧
        dirname (outPathFor w args f) ∈ (mainDirBranch w args fs).fs.dirs) := by
  intro w args fs f hf hcond
  have hne : (iter_plist_files w args.plist_file args.recursive).isEmpty = false := by
    cases h : iter_plist_files w args.plist_file args.recursive with
    | nil => rw [h] at hf; cases hf
    | cons a l => simp
  unfold mainDirBranch
  simp only [hne, Bool.false_eq_true, if_false, hcond]
  exact processFiles_mkdir_read w args.indent (batchBaseDir w args)
    (batchOutputDir w args) _ _ f hf

/-- World for the C9 witness: one plist file whose conversion fails. -/
def c9World : World :=
  { cwd := "/w", load := fun _ => LoadResult.invalidFile, walkFiles := [],
    entries := [⟨"x.plist", true⟩] }

/-- Arguments for the C9 witness. -/
def c9Args : Args := ⟨"d", none, some "o", 2, false, false⟩

/-- C9 witness: at a concrete batch whose only candidate fails to convert,
the output parent directory is still created, and the mkdir event precedes
the read of the candidate. -/
theorem batch_mkdir_before_read_witness :
    (∃ l1 l2,
        (mainDirBranch c9World c9Args emptyFS).fs.events =
          l1 ++ Ev.mkdirp (dirname (outPathFor c9World c9Args "d/x.plist")) ::
            Ev.readFile "d/x.plist" :: l2) ∧
      dirname (outPathFor c9World c9Args "d/x.plist") ∈
        (mainDirBranch c9World c9Args emptyFS).fs.dirs :=
  batch_mkdir_before_read c9World c9Args emptyFS "d/x.plist" (by decide) (by decide)

/-- C2 witness for the amended statement. -/
theorem mainDir_usage_rejection_witness :
    (mainDirBranch c2World c2UsageArgs emptyFS).exitCode = 2 ∧
    (mainDirBranch c2World c2UsageArgs emptyFS).results = [] ∧
    (mainDirBranch c2World c2UsageArgs emptyFS).fs =
      { emptyFS with events := emptyFS.events ++ [Ev.enumerateDir, Ev.exitUsage] } :=
  mainDir_usage_rejection c2World c2UsageArgs emptyFS (by decide) (by decide) (by decide)

end Plister
